import Mathlib

/-!
Verification of the configuration-tree diffing and patch-generation engine of
`skilletlib/panoply.py` (`generate_skillet_from_configs`, `__check_element`,
`__order_snippets`, `__filter_snippets_by_xpath`, `__check_children_are_list`,
`__split_xpath`, `__clean_uuid`, `generate_set_cli_from_configs`).

The XML documents the engine works on are modelled as ordered trees of
elements (tag, ordered attribute pairs, optional text, ordered children).
Mixed content (text tails between sibling elements) is not modelled, and
attribute and text values are assumed not to contain a double quote, so that
the xpath strings the source builds by string interpolation correspond
one-to-one to the structured paths used here.  Documents enter the model as
already-parsed trees; parsing and `ParseError` are outside its scope.
-/

/-- An XML element as seen by `lxml.etree`: tag name, ordered attribute
pairs, optional text content (Python `None` is `none`) and child elements. -/
structure XNode where
  tag : String
  attrib : List (String × String)
  text : Option String
  children : List XNode

mutual

/-- Structural equality of two element trees. -/
def xEq : XNode → XNode → Bool
  | .mk t1 a1 x1 c1, .mk t2 a2 x2 c2 =>
    decide (t1 = t2) && decide (a1 = a2) && decide (x1 = x2) && xEqList c1 c2

/-- Pointwise structural equality of two child lists. -/
def xEqList : List XNode → List XNode → Bool
  | [], [] => true
  | c :: cs, d :: ds => xEq c d && xEqList cs ds
  | _, _ => false

end

mutual

theorem xEq_refl : ∀ x : XNode, xEq x x = true
  | .mk t a s c => by simp [xEq, xEqList_refl c]

theorem xEqList_refl : ∀ cs : List XNode, xEqList cs cs = true
  | [] => rfl
  | c :: cs => by
    simp only [xEqList, Bool.and_eq_true]
    exact ⟨xEq_refl c, xEqList_refl cs⟩

end

mutual

theorem xEq_sound : ∀ a b : XNode, xEq a b = true → a = b
  | .mk t1 a1 x1 c1, .mk t2 a2 x2 c2 => by
    intro h
    simp only [xEq, Bool.and_eq_true, decide_eq_true_eq] at h
    obtain ⟨⟨⟨h1, h2⟩, h3⟩, h4⟩ := h
    rw [h1, h2, h3, xEqList_sound c1 c2 h4]

theorem xEqList_sound : ∀ as bs : List XNode, xEqList as bs = true → as = bs
  | [], [], _ => rfl
  | [], _ :: _, h => by simp [xEqList] at h
  | _ :: _, [], h => by simp [xEqList] at h
  | a :: as, b :: bs, h => by
    simp only [xEqList, Bool.and_eq_true] at h
    rw [xEq_sound a b h.1, xEqList_sound as bs h.2]

end

theorem xEq_iff (a b : XNode) : xEq a b = true ↔ a = b :=
  ⟨xEq_sound a b, fun h => h ▸ xEq_refl a⟩

instance : DecidableEq XNode := fun a b => decidable_of_iff (xEq a b = true) (xEq_iff a b)

/-! ## String helpers (Python `in`, prefix/suffix tests, `re.sub` on a literal anchor) -/

/-- Boolean list-prefix test over characters. -/
def startsWithChars : List Char → List Char → Bool
  | [], _ => true
  | _ :: _, [] => false
  | p :: ps, c :: cs => p == c && startsWithChars ps cs

/-- Auxiliary scan for substring containment. -/
def subAux (pat : List Char) : List Char → Bool
  | [] => pat.isEmpty
  | c :: rest => startsWithChars pat (c :: rest) || subAux pat rest

/-- Python's substring containment test `pat in s`. -/
def containsSub (s pat : String) : Bool := subAux pat.toList s.toList

/-- Does `s` start with the literal `pre`? -/
def strStarts (s pre : String) : Bool := startsWithChars pre.toList s.toList

/-- Does `s` end with the literal `suf`? -/
def strEnds (s suf : String) : Bool := startsWithChars suf.toList.reverse s.toList.reverse

/-- `re.sub('^' ++ pre, repl, s)` for a literal anchored pattern. -/
def rewriteStart (s pre repl : String) : String :=
  if strStarts s pre then repl ++ String.mk (s.toList.drop pre.toList.length) else s

/-- Python `str.strip()`: drop leading and trailing whitespace. -/
def strTrim (s : String) : String :=
  String.mk (((s.toList.dropWhile Char.isWhitespace).reverse.dropWhile Char.isWhitespace).reverse)

/-! ## Path segments

`__check_element` builds xpath strings of the restricted grammar
`tag`, `tag[@k="v" ...]`, `tag[text()="v"]`, `tag[n]`; we keep them
structured and render to the string form where the source manipulates
strings. -/

/-- One xpath segment as generated by `__check_element`. -/
inductive Seg where
  | bare (t : String)
  | attr (t : String) (ps : List (String × String))
  | txt (t : String) (s : String)
  | idx (t : String) (i : Nat)
deriving DecidableEq

/-- The tag name of a segment (what remains of the last path entry after
`re.sub(r'\[.*\]', '', entry)`). -/
def Seg.tagName : Seg → String
  | .bare t => t
  | .attr t _ => t
  | .txt t _ => t
  | .idx t _ => t

/-- Render one `@k="v"` predicate term. -/
def renderAttrPred (kv : String × String) : String := "@" ++ kv.1 ++ "=\"" ++ kv.2 ++ "\""

/-- Render a segment to the exact string `__check_element` interpolates. -/
def renderSeg : Seg → String
  | .bare t => t
  | .attr t ps => t ++ "[" ++ String.intercalate " " (ps.map renderAttrPred) ++ "]"
  | .txt t s => t ++ "[text()=\"" ++ s ++ "\"]"
  | .idx t i => t ++ "[" ++ toString i ++ "]"

/-- The rendered string of a segment is valid XPath 1.0 only when an
attribute predicate carries exactly one pair: the source joins several
pairs with a space (`entry[@a="1" @b="2"]`), and zero pairs give `tag[]`;
both make `lxml`'s xpath evaluation raise `XPathEvalError`. -/
def segValid : Seg → Bool
  | .attr _ ps => ps.length == 1
  | _ => true

/-- A path (relative to the document element `.`) is valid iff all its
segments are. -/
def pathValid (p : List Seg) : Bool := p.all segValid

/-- Render a path the way the source accumulates `xpath` strings:
`'.' + '/seg' + '/seg' + ...`. -/
def renderPath (p : List Seg) : String :=
  "." ++ String.join (p.map (fun s => "/" ++ renderSeg s))

/-! ## XPath evaluation (the fragment of lxml used by the source) -/

/-- Does element `c` satisfy every `@k="v"` pair of the predicate? -/
def attrsMatch (c : XNode) (ps : List (String × String)) : Bool :=
  ps.all (fun kv => c.attrib.lookup kv.1 == some kv.2)

/-- Child-axis evaluation of one segment at context node `n`, in document
order, matching lxml's semantics on the generated grammar. -/
def evalSeg (n : XNode) : Seg → List XNode
  | .bare t => n.children.filter (fun c => c.tag == t)
  | .attr t ps => n.children.filter (fun c => c.tag == t && attrsMatch c ps)
  | .txt t s => n.children.filter (fun c => c.tag == t && c.text == some s)
  | .idx t i =>
    if i = 0 then [] else ((n.children.filter (fun c => c.tag == t)).drop (i-1)).take 1

/-- Evaluate the remaining segments starting from a working node list. -/
def evalPathFrom (nodes : List XNode) : List Seg → List XNode
  | [] => nodes
  | s :: rest => evalPathFrom (nodes.flatMap (fun n => evalSeg n s)) rest

/-- `root.xpath('./seg/seg/...')`: all matching nodes in document order. -/
def evalPath (root : XNode) (p : List Seg) : List XNode := evalPathFrom [root] p

/-! ## `__check_children_are_list` -/

/-- The tag-scanning loop of `__check_children_are_list`, with its `''`
sentinel for "no tag seen yet". -/
def listGo : String → List XNode → Bool
  | _, [] => true
  | foundTag, ch :: rest =>
    if foundTag = "" then listGo ch.tag rest
    else if ¬ foundTag = ch.tag then false
    else listGo foundTag rest

/-- `__check_children_are_list`: false for 0 or 1 children, else true iff
every child has the same tag name. -/
def checkChildrenAreList (c : List XNode) : Bool :=
  if c.length ≤ 1 then false else listGo "" c

/-- Modelled from the spec: the approximate list matcher is the third-party
`xmldiff` library (`diff_trees` with `F = 0.1`, accurate ratio mode and fast
match), which is not part of this repository.  Per the spec it reports zero
differences exactly when the two trees need no edits; we model this as
structural tree equality (attribute order is compared literally, and
reorderings that the fuzzy matcher might also report as zero diffs are
conservatively treated as differing). -/
def diffTreesIsEmpty (previous latest : XNode) : Bool := xEq previous latest

/-! ## `__check_element` (the recursive tree walk) -/

/-- Failure modes of the walk observable as Python exceptions. -/
inductive XErr where
  | invalidXpath
  | noneText
deriving DecidableEq

instance {ε α : Type} [DecidableEq ε] [DecidableEq α] : DecidableEq (Except ε α)
  | .error e, .error f => decidable_of_iff (e = f) (by simp)
  | .error _, .ok _ => isFalse (by simp)
  | .ok _, .error _ => isFalse (by simp)
  | .ok a, .ok b => decidable_of_iff (a = b) (by simp)

/-- Path segment `__check_element` constructs for child `e` (lines
1017-1045): attribute predicate (uuid excluded) when attributes exist, text
predicate or 1-based index when in list mode, bare tag otherwise.  In list
mode the source evaluates `e.text.strip()`, which raises `AttributeError`
when `e.text` is `None`; that exception is the `noneText` error. -/
def childSeg (e : XNode) (isList : Bool) (index : Nat) : Except XErr Seg :=
  if e.attrib.isEmpty then
    (if isList then
      match e.text with
      | none => .error .noneText
      | some t => if strTrim t = "" then .ok (Seg.idx e.tag index) else .ok (Seg.txt e.tag (strTrim t))
    else .ok (Seg.bare e.tag))
  else .ok (Seg.attr e.tag (e.attrib.filter (fun kv => ¬ kv.1 = "uuid")))

mutual

/-- `Panoply.__check_element(el, xpath, pc, not_founds)` (lines 967-1060).
The previous config `pc` is hoisted to a leading fixed parameter; `el` is
matched structurally.  `pc.xpath(xpath)` raising on an invalid generated
xpath is the `invalidXpath` error. -/
def checkElement (pc : XNode) : XNode → List Seg → List (List Seg) → Except XErr (List (List Seg))
  | .mk t a x c, xpath, notFounds =>
    if pathValid xpath = false then .error .invalidXpath
    else
      match evalPath pc xpath with
      | [] => .ok (notFounds ++ [xpath])
      | foundElement :: _ =>
        if c.isEmpty then
          (if foundElement.text = x then .ok notFounds else .ok (notFounds ++ [xpath]))
        else if checkChildrenAreList c && diffTreesIsEmpty foundElement (XNode.mk t a x c) then
          .ok notFounds
        else
          match checkChildren pc c xpath (checkChildrenAreList c) 1 with
          | .error err => .error err
          | .ok r => .ok (notFounds ++ r)

/-- The `for e in el` loop of `__check_element` (lines 1013-1054): build each
child's segment, recurse with a fresh accumulator, extend the results, and
advance the 1-based index. -/
def checkChildren (pc : XNode) :
    List XNode → List Seg → Bool → Nat → Except XErr (List (List Seg))
  | [], _, _, _ => .ok []
  | e :: rest, xpath, isList, index =>
    match childSeg e isList index with
    | .error err => .error err
    | .ok seg =>
      match checkElement pc e (xpath ++ [seg]) [] with
      | .error err => .error err
      | .ok new =>
        match checkChildren pc rest xpath isList (index + 1) with
        | .error err => .error err
        | .ok more => .ok (new ++ more)

end

/-- The top-level loop of `generate_skillet_from_configs` (lines 897-900):
each child of the latest document is checked at `./tag` (a bare tag, even
when the child has attributes). -/
def topWalkGo (pc : XNode) : List XNode → Except XErr (List (List Seg))
  | [] => .ok []
  | c :: rest =>
    match checkElement pc c [Seg.bare c.tag] [] with
    | .error err => .error err
    | .ok r =>
      match topWalkGo pc rest with
      | .error err => .error err
      | .ok more => .ok (r ++ more)

/-- The complete change-set computation of `generate_skillet_from_configs`
before snippet assembly. -/
def topWalk (latestDoc previousDoc : XNode) : Except XErr (List (List Seg)) :=
  topWalkGo previousDoc latestDoc.children

/-! ## Serialization (`etree.tostring` on tail-free trees) -/

/-- Render the attribute list as serialized in a start tag. -/
def renderAttrs (ps : List (String × String)) : String :=
  String.join (ps.map (fun kv => " " ++ kv.1 ++ "=\"" ++ kv.2 ++ "\""))

mutual

/-- `etree.tostring(element)` for trees without mixed content: an element
with no text and no children serializes as `<tag .../>`. -/
def serialize : XNode → String
  | .mk t a x c =>
    match x, c with
    | none, [] => "<" ++ t ++ renderAttrs a ++ "/>"
    | _, _ =>
      "<" ++ t ++ renderAttrs a ++ ">" ++ x.getD "" ++ serializeList c ++ "</" ++ t ++ ">"

/-- Serialize a list of children in order. -/
def serializeList : List XNode → String
  | [] => ""
  | c :: cs => serialize c ++ serializeList cs

end

/-! ## `__clean_uuid` -/

mutual

/-- Remove the `uuid` attribute from a node and everything below it. -/
def stripUuidAll : XNode → XNode
  | .mk t a x c => .mk t (a.filter (fun kv => ¬ kv.1 = "uuid")) x (stripUuidAllList c)

/-- `stripUuidAll` mapped over a child list. -/
def stripUuidAllList : List XNode → List XNode
  | [] => []
  | c :: cs => stripUuidAll c :: stripUuidAllList cs

end

/-- `Panoply.__clean_uuid` (lines 1329-1349): `findall('.//*[@uuid]')`
selects strict descendants only, so the element's own `uuid` attribute
survives; only descendants are cleaned. -/
def cleanUuid : XNode → XNode
  | .mk t a x c => .mk t a x (stripUuidAllList c)

/-- `__clean_uuid` including its `None` guard (`if changed_element is None:
return changed_element`). -/
def cleanUuidOpt : Option XNode → Option XNode
  | none => none
  | some n => some (cleanUuid n)

/-! ## Snippet assembly (`generate_skillet_from_configs`, lines 902-935) -/

/-- The assembled patch snippet dict: `name`, `xpath` (container path),
`element` (serialized text), `full_xpath` (used only for ordering). -/
structure Snippet where
  name : String
  xpath : String
  element : String
  full_xpath : String
deriving DecidableEq

/-- The fixed ignore list (line 891-893). -/
def ignoredXpaths : List String := ["/config/mgt-config/users/entry[@name=\"admin\"]"]

/-- `__split_xpath` (lines 1062-1068) on a structured path: the regex splits
on `/` outside double quotes, which on the generated grammar is exactly the
segment structure; the result is (all but the last segment joined, last
segment).  An empty path renders as `.`, whose split yields `("", ".")`. -/
def splitXpath (p : List Seg) : String × String :=
  match p.getLast? with
  | none => ("", ".")
  | some lastSeg => (renderPath p.dropLast, renderSeg lastSeg)

/-- `set_xpath` after `re.sub(r'^\./', '/config/', set_xpath)` (line 908). -/
def setXpathOf (p : List Seg) : String := rewriteStart (splitXpath p).1 "./" "/config/"

/-- `full_relative_xpath = re.sub(r'^/config/', './', xpath)` (line 909);
walk-generated xpaths already start with `./`, so this is the rendered path. -/
def fullRelOf (p : List Seg) : String := rewriteStart (renderPath p) "/config/" "./"

/-- `tag = re.sub(r'\[.*\]', '', entry)` (line 910): the bare tag name of the
last segment (`.` for the empty path). -/
def tagOfLast (p : List Seg) : String :=
  match p.getLast? with
  | none => "."
  | some lastSeg => lastSeg.tagName

/-- Build the snippet dict for one resolved change (lines 926-933).  The
source disambiguates `name` with `random.random()`; the model uses the
change's position in the list as the deterministic disambiguator. -/
def mkSnippet (changed : XNode) (idx : Nat) (p : List Seg) : Snippet :=
  { name := tagOfLast p ++ "-" ++ toString idx
    xpath := setXpathOf p
    element := strTrim (serialize changed)
    full_xpath := fullRelOf p }

/-- The `for xpath in not_found_xpaths` assembly loop (lines 904-933):
ignored container paths and xpaths that no longer resolve are skipped,
everything else becomes a snippet; `latest_doc.xpath` on an invalid xpath
would raise. -/
def assembleGo (latestDoc : XNode) : List (List Seg) → Nat → Except XErr (List Snippet)
  | [], _ => .ok []
  | p :: rest, idx =>
    if setXpathOf p ∈ ignoredXpaths then assembleGo latestDoc rest (idx + 1)
    else if pathValid p = false then .error .invalidXpath
    else
      match evalPath latestDoc p with
      | [] => assembleGo latestDoc rest (idx + 1)
      | changed :: _ =>
        match assembleGo latestDoc rest (idx + 1) with
        | .error err => .error err
        | .ok more => .ok (mkSnippet changed idx p :: more)

/-! ## `__order_snippets` and `__filter_snippets_by_xpath` -/

/-- The priority prefix list of `__order_snippets` (lines 1075-1089).  The
source is missing a comma after `'/shared/'`, so Python's implicit literal
concatenation fuses it with `'/tag/entry'` into the single element
`'/shared//tag/entry'`; the model reproduces that list faithfully. -/
def xpathsPriority : List String :=
  ["/shared/certificate",
   "/shared/ssl-tls-service-profile",
   "/shared/tag",
   "/shared/profiles",
   "/shared/reports",
   "/shared//tag/entry",
   "/deviceconfig/system",
   "/network/interface", "/network/virtual-wire", "/network/vlan",
   "/network/ike", "/network/tunnel",
   "/network/virtual-router", "/network/profiles/zone-protection-profile", "/zone/entry",
   "/profiles/custom-url-category",
   "/address/entry"]

/-- The deferred prefix list (line 1095). -/
def postXpaths : List String := ["/rulebase"]

/-- `__filter_snippets_by_xpath` (lines 1111-1126): the snippets whose
`full_xpath` contains `xpath` as a substring, in their original order. -/
def filterSnippetsByXpath (snippets : List Snippet) (xpath : String) : List Snippet :=
  snippets.filter (fun s => containsSub s.full_xpath xpath)

/-- `__order_snippets` (lines 1070-1109): per-prefix collection (without
removal from the pool), then the not-yet-placed non-deferred snippets, then
the deferred ones not already placed. -/
def orderSnippets (snippets : List Snippet) : List Snippet :=
  let ordered0 := xpathsPriority.foldl (fun acc x => acc ++ filterSnippetsByXpath snippets x) []
  let post := postXpaths.foldl (fun acc x => acc ++ filterSnippetsByXpath snippets x) []
  let ordered1 :=
    snippets.foldl (fun acc s => if s ∈ acc ∨ s ∈ post then acc else acc ++ [s]) ordered0
  post.foldl (fun acc ps => if ps ∈ acc then acc else acc ++ [ps]) ordered1

/-- `generate_skillet_from_configs(previous_config, latest_config)` (lines
884-935) on parsed documents: walk, assemble, order. -/
def generateSkilletFromConfigs (previousDoc latestDoc : XNode) : Except XErr (List Snippet) :=
  match topWalk latestDoc previousDoc with
  | .error err => .error err
  | .ok notFound =>
    match assembleGo latestDoc notFound 0 with
    | .error err => .error err
    | .ok snippets => .ok (orderSnippets snippets)

/-! ## `generate_set_cli_from_configs` (lines 937-965)

The conversion of a configuration document to set commands is done by the
external `pan-python` `PanConfig.set_cli`; the model takes the two produced
command lists as inputs and captures the source's own filtering loop. -/

/-- The cleanup chain applied to each kept command (lines 960-962), in the
source's order. -/
def cleanSetCmd (cmd : String) : String :=
  ((cmd.replace "devices localhost.localdomain " "").replace "\n" " ").replace "vsys vsys1 " ""

/-- The `for cmd in l_set` loop (lines 955-963): keep commands absent from
the previous set and not containing `set readonly`, cleaned, in order. -/
def generateSetCliFromConfigs (pSet lSet : List String) : List String :=
  lSet.foldl
    (fun diffs cmd =>
      if cmd ∈ pSet ∨ containsSub cmd "set readonly" = true then diffs
      else diffs ++ [cleanSetCmd cmd])
    []

/-! ## Ghost-annotated walk

`checkElementAnn` is `checkElement` with provenance: each produced xpath is
paired with the latest-document element it was generated from, and the
always-empty `not_founds` accumulator of the source's recursive calls is
dropped.  `checkElementAnn_erase` ties it to `checkElement`. -/

mutual

/-- `__check_element` with each produced xpath paired with its generating
element. -/
def checkElementAnn (pc : XNode) : XNode → List Seg → Except XErr (List (List Seg × XNode))
  | .mk t a x c, xpath =>
    if pathValid xpath = false then .error .invalidXpath
    else
      match evalPath pc xpath with
      | [] => .ok [(xpath, XNode.mk t a x c)]
      | foundElement :: _ =>
        if c.isEmpty then
          (if foundElement.text = x then .ok [] else .ok [(xpath, XNode.mk t a x c)])
        else if checkChildrenAreList c && diffTreesIsEmpty foundElement (XNode.mk t a x c) then
          .ok []
        else checkChildrenAnn pc c xpath (checkChildrenAreList c) 1

/-- The child loop of `checkElementAnn`. -/
def checkChildrenAnn (pc : XNode) :
    List XNode → List Seg → Bool → Nat → Except XErr (List (List Seg × XNode))
  | [], _, _, _ => .ok []
  | e :: rest, xpath, isList, index =>
    match childSeg e isList index with
    | .error err => .error err
    | .ok seg =>
      match checkElementAnn pc e (xpath ++ [seg]) with
      | .error err => .error err
      | .ok new =>
        match checkChildrenAnn pc rest xpath isList (index + 1) with
        | .error err => .error err
        | .ok more => .ok (new ++ more)

end

/-- Annotated version of the top-level walk loop. -/
def topWalkAnnGo (pc : XNode) : List XNode → Except XErr (List (List Seg × XNode))
  | [] => .ok []
  | c :: rest =>
    match checkElementAnn pc c [Seg.bare c.tag] with
    | .error err => .error err
    | .ok r =>
      match topWalkAnnGo pc rest with
      | .error err => .error err
      | .ok more => .ok (r ++ more)

/-- Annotated version of `topWalk`. -/
def topWalkAnn (latestDoc previousDoc : XNode) : Except XErr (List (List Seg × XNode)) :=
  topWalkAnnGo previousDoc latestDoc.children

/-! ## Resolution-unambiguity condition for the idempotence property

`diff(X, X)` compares each element `el` against `pc.xpath(xpath)[0]`.  The
first match is `el` itself only when every segment the walk constructs
selects its own element first among the corresponding children; `uniqueSel`
states exactly that requirement (recursively, along every branch the walk
descends into), together with validity of the constructed attribute
predicates. -/

/-- The segment `__check_element` constructs for child `e` when the parent's
children are not in list mode. -/
def descSeg (e : XNode) : Seg :=
  if e.attrib.isEmpty then Seg.bare e.tag
  else Seg.attr e.tag (e.attrib.filter (fun kv => ¬ kv.1 = "uuid"))

mutual

/-- Along every branch `diff(X, X)` descends into, the constructed segment
must select its own element first, and constructed attribute predicates must
be valid xpath. -/
def uniqueSel : XNode → Bool
  | .mk t a x c =>
    if c.isEmpty then true
    else if checkChildrenAreList c then true
    else uniqueSelChildren (XNode.mk t a x c) c

/-- `uniqueSel` over the children of `el`. -/
def uniqueSelChildren (el : XNode) : List XNode → Bool
  | [] => true
  | e :: rest =>
    segValid (descSeg e) && decide ((evalSeg el (descSeg e)).head? = some e)
      && uniqueSel e && uniqueSelChildren el rest

end

/-- `uniqueSel` at the document element: the top-level loop uses bare-tag
xpaths `./tag` for every top child, so each top child must be the first of
its tag, and `uniqueSel` must hold below. -/
def uniqueSelDoc (doc : XNode) : Bool :=
  doc.children.all (fun c => decide ((evalSeg doc (Seg.bare c.tag)).head? = some c) && uniqueSel c)


/-! ## Specification form of snippet assembly (used to state the assembly claim) -/

/-- Pair each list element with its position, starting at `i`. -/
def withIdx : Nat → List α → List (Nat × α)
  | _, [] => []
  | i, x :: xs => (i, x) :: withIdx (i + 1) xs

/-- Declarative description of what `assembleGo` does with one change path:
skipped when its container path is ignored or it no longer resolves,
otherwise the assembled snippet. -/
def assembleSpecOne (latestDoc : XNode) (ip : Nat × List Seg) : Option Snippet :=
  if setXpathOf ip.2 ∈ ignoredXpaths then none
  else
    match evalPath latestDoc ip.2 with
    | [] => none
    | changed :: _ => some (mkSnippet changed ip.1 ip.2)

/-- The invariant attached to every xpath the annotated walk produces: it is
absent from the previous config, or the first previous node it resolves to
has text differing from the (childless) latest element it was generated
from. -/
def annInvProp (pc : XNode) (pe : List Seg × XNode) : Prop :=
  evalPath pc pe.1 = [] ∨
    ∃ f r, evalPath pc pe.1 = f :: r ∧ ¬ f.text = pe.2.text ∧ pe.2.children = []

/-! ## Concrete documents used by the individual claims -/

/-- A `<b>` leaf with the given text. -/
def nB (t : String) : XNode := .mk "b" [] (some t) []

/-- Idempotence counterexample: two same-tag top-level siblings whose `./a/b`
xpath is ambiguous. -/
def cX1 : XNode := .mk "config" [] none [.mk "a" [] none [nB "1"], .mk "a" [] none [nB "2"]]

/-- The single snippet `diff(cX1, cX1)` actually emits. -/
def cSnip1 : Snippet :=
  { name := "b-0"
    xpath := "/config/a"
    element := "<b>1</b>"
    full_xpath := "./a/b" }

/-- Idempotence witness document: distinct tags everywhere. -/
def cXw : XNode := .mk "config" [] none [.mk "shared" [] none [.mk "tag1" [] (some "v") []]]

/-- Scenario A previous document `<config><network/></config>`. -/
def cPrevA : XNode := .mk "config" [] none [.mk "network" [] none []]

/-- Scenario A latest document. -/
def cLatA : XNode := .mk "config" [] none
  [.mk "network" [] none [.mk "interface" [] none [.mk "entry" [("name", "eth1")] none []]]]

/-- The snippet Scenario A actually produces. -/
def cSnipA : Snippet :=
  { name := "interface-0"
    xpath := "/config/network"
    element := "<interface><entry name=\"eth1\"/></interface>"
    full_xpath := "./network/interface" }

/-- A `<p>` leaf with the given text. -/
def pNode (t : String) : XNode := .mk "p" [] (some t) []

/-- Containment counterexample document: `./n/p` resolves to two nodes. -/
def cPrev3 : XNode := .mk "config" [] none [.mk "n" [] none [pNode "1"], .mk "n" [] none [pNode "2"]]

/-- Previous port element of the containment witness (Scenario C). -/
def cPortPrev : XNode := .mk "port" [] (some "0000") []

/-- Latest port element of the containment witness (Scenario C). -/
def cPortLat : XNode := .mk "port" [] (some "6666") []

/-- Scenario C previous document. -/
def cPrevC : XNode := .mk "config" [] none
  [.mk "service" [] none [.mk "entry" [("name", "x")] none [cPortPrev]]]

/-- Scenario C latest document. -/
def cLatC : XNode := .mk "config" [] none
  [.mk "service" [] none [.mk "entry" [("name", "x")] none [cPortLat]]]

/-- The path Scenario C's change is reported at. -/
def cPathC : List Seg := [Seg.bare "service", Seg.attr "entry" [("name", "x")], Seg.bare "port"]

/-- Subsumption counterexample, previous document. -/
def cPrev4 : XNode := .mk "config" [] none
  [.mk "a" [] none [.mk "b" [] none [.mk "c" [] (some "2") []]]]

/-- Subsumption counterexample, latest document: two `a` branches generating
`./a/b/c` and `./a/b`. -/
def cLat4 : XNode := .mk "config" [] none
  [.mk "a" [] none [.mk "b" [] none [.mk "c" [] (some "1") []]],
   .mk "a" [] none [.mk "b" [] (some "x") []]]

/-- Empty previous document for the subsumption witness. -/
def cPc4w : XNode := .mk "config" [] none []

/-- Element checked against the absent path in the subsumption witness. -/
def cEl4w : XNode := .mk "q" [] none []

/-- A snippet whose `full_xpath` contains two different priority prefixes. -/
def cSnip5 : Snippet :=
  { name := "x"
    xpath := "y"
    element := "e"
    full_xpath := "./shared/certificate/q/shared/tag/r" }

/-- Ordering witness: a tag snippet. -/
def sTag : Snippet :=
  { name := "t"
    xpath := "x1"
    element := "e1"
    full_xpath := "./shared/tag/entry[@name=\"t\"]" }

/-- Ordering witness: a rulebase snippet. -/
def sRule : Snippet :=
  { name := "r"
    xpath := "x2"
    element := "e2"
    full_xpath := "./rulebase/security/rules/entry[@name=\"r\"]" }

/-- Ordering witness: a snippet matching no ordering class. -/
def sMisc : Snippet :=
  { name := "m"
    xpath := "x3"
    element := "e3"
    full_xpath := "./devices/x" }

/-- An `<entry name="...">` element. -/
def eEntry (n : String) : XNode := .mk "entry" [("name", n)] none []

/-- Scenario B list node: three same-tag entries. -/
def cSharedB : XNode := .mk "shared" [] none [eEntry "a", eEntry "b", eEntry "c"]

/-- Scenario B document. -/
def cDocB : XNode := .mk "config" [] none [cSharedB]

/-- uuid claim, previous document. -/
def cPrev7 : XNode := .mk "config" [] none [.mk "shared" [] none []]

/-- uuid claim, latest document: a new subtree carrying a `uuid` attribute. -/
def cLat7 : XNode := .mk "config" [] none
  [.mk "shared" [] none [.mk "rules" [] none
    [.mk "entry" [("name", "r1"), ("uuid", "1234")] none [.mk "action" [] (some "allow") []]]]]

/-- The snippet the uuid claim's input actually emits. -/
def cSnip7 : Snippet :=
  { name := "rules-0"
    xpath := "/config/shared"
    element := "<rules><entry name=\"r1\" uuid=\"1234\"><action>allow</action></entry></rules>"
    full_xpath := "./shared/rules" }

/-- Segment-construction claim, previous document. -/
def cPrev9 : XNode := .mk "config" [] none
  [.mk "a" [] none [.mk "m" [] (some "x") [], .mk "m" [] (some "y") []]]

/-- Segment-construction claim, latest document: a changed homogeneous list
whose first member has no attributes and `None` text. -/
def cLat9 : XNode := .mk "config" [] none
  [.mk "a" [] none [.mk "m" [] none [], .mk "m" [] (some "y") []]]

/-- Assembly witness document. -/
def wDoc8 : XNode := .mk "config" [] none
  [.mk "mgt-config" [] none [.mk "users" [] none
    [.mk "entry" [("name", "admin")] none [.mk "phash" [] (some "x") []]]],
   .mk "shared" [] none [.mk "tagx" [] (some "a") []]]

/-- Assembly witness change paths: one ignored, one emitted, one
unresolvable. -/
def wPaths8 : List (List Seg) :=
  [[Seg.bare "mgt-config", Seg.bare "users", Seg.attr "entry" [("name", "admin")], Seg.bare "phash"],
   [Seg.bare "shared", Seg.bare "tagx"],
   [Seg.bare "nope"]]

/-- The snippet the assembly witness emits. -/
def wSnip8 : Snippet :=
  { name := "tagx-1"
    xpath := "/config/shared"
    element := "<tagx>a</tagx>"
    full_xpath := "./shared/tagx" }

/-! ## Helper lemmas -/

theorem pathValid_append (p : List Seg) (s : Seg) :
    pathValid (p ++ [s]) = (pathValid p && segValid s) := by
  simp [pathValid, List.all_append]

theorem evalPathFrom_append (nodes : List XNode) (p : List Seg) (s : Seg) :
    evalPathFrom nodes (p ++ [s]) = (evalPathFrom nodes p).flatMap (fun n => evalSeg n s) := by
  induction p generalizing nodes with
  | nil => simp [evalPathFrom]
  | cons q rest ih => simp only [List.cons_append, evalPathFrom]; exact ih _

theorem evalPath_append (root : XNode) (p : List Seg) (s : Seg) :
    evalPath root (p ++ [s]) = (evalPath root p).flatMap (fun n => evalSeg n s) :=
  evalPathFrom_append [root] p s

theorem evalPath_single (root : XNode) (s : Seg) :
    evalPath root [s] = evalSeg root s := by
  simp [evalPath, evalPathFrom]

theorem childSeg_not_list (e : XNode) (i : Nat) : childSeg e false i = .ok (descSeg e) := by
  by_cases h : e.attrib.isEmpty <;> simp [childSeg, descSeg, h]

theorem checkChildrenAreList_isEmpty_false {c : List XNode}
    (h : checkChildrenAreList c = true) : c.isEmpty = false := by
  cases c with
  | nil => simp [checkChildrenAreList] at h
  | cons a l => rfl

/-! ## The self-diff lemma: when every constructed segment selects its own
element first, the walk of an element against a document in which its path
resolves first to itself reports nothing. -/

mutual

theorem walkSelfOk : ∀ (el pc : XNode) (xpath : List Seg) (nf : List (List Seg))
    (rest : List XNode), pathValid xpath = true → evalPath pc xpath = el :: rest →
    uniqueSel el = true → checkElement pc el xpath nf = .ok nf
  | .mk t a x c, pc, xpath, nf, rest, hv, he, hu => by
    by_cases hc : c.isEmpty
    · simp [checkElement, hv, he, hc]
    · by_cases hl : checkChildrenAreList c
      · simp [checkElement, hv, he, hc, hl, diffTreesIsEmpty, xEq_refl]
      · simp only [uniqueSel, hc, hl, if_false, Bool.false_eq_true, if_true] at hu
        have hgo := walkChildrenOk c (XNode.mk t a x c) pc xpath 1 rest hv he hu
        simp only [Bool.not_eq_true] at hl
        simp [checkElement, hv, he, hc, hl, hgo]

theorem walkChildrenOk : ∀ (cs : List XNode) (el pc : XNode) (xpath : List Seg)
    (idx : Nat) (rest : List XNode), pathValid xpath = true →
    evalPath pc xpath = el :: rest → uniqueSelChildren el cs = true →
    checkChildren pc cs xpath false idx = .ok []
  | [], _, _, _, _, _, _, _, _ => rfl
  | e :: cs', el, pc, xpath, idx, rest, hv, he, hu => by
    simp only [uniqueSelChildren, Bool.and_eq_true, decide_eq_true_eq] at hu
    obtain ⟨⟨⟨hseg, hhead⟩, hue⟩, hucs⟩ := hu
    obtain ⟨tl, htl⟩ : ∃ tl, evalSeg el (descSeg e) = e :: tl := by
      cases hes : evalSeg el (descSeg e) with
      | nil => rw [hes] at hhead; simp at hhead
      | cons e0 tl =>
        rw [hes] at hhead
        simp only [List.head?_cons, Option.some.injEq] at hhead
        exact ⟨tl, by rw [hhead]⟩
    have hev : evalPath pc (xpath ++ [descSeg e])
        = e :: (tl ++ rest.flatMap (fun n => evalSeg n (descSeg e))) := by
      rw [evalPath_append, he]
      simp [htl]
    have hv2 : pathValid (xpath ++ [descSeg e]) = true := by
      rw [pathValid_append, hv, hseg]; rfl
    have h1 := walkSelfOk e pc (xpath ++ [descSeg e]) [] _ hv2 hev hue
    have h2 := walkChildrenOk cs' el pc xpath (idx + 1) rest hv he hucs
    simp [checkChildren, childSeg_not_list, h1, h2]

end

/-- Top-level version of the self-diff lemma. -/
theorem topWalkGoOk : ∀ (l : List XNode) (X : XNode),
    (∀ c ∈ l, (evalSeg X (Seg.bare c.tag)).head? = some c ∧ uniqueSel c = true) →
    topWalkGo X l = .ok []
  | [], _, _ => rfl
  | c :: l', X, h => by
    obtain ⟨hh, hu⟩ := h c (List.mem_cons_self c l')
    obtain ⟨tl, htl⟩ : ∃ tl, evalSeg X (Seg.bare c.tag) = c :: tl := by
      cases hes : evalSeg X (Seg.bare c.tag) with
      | nil => rw [hes] at hh; simp at hh
      | cons e0 tl =>
        rw [hes] at hh
        simp only [List.head?_cons, Option.some.injEq] at hh
        exact ⟨tl, by rw [hh]⟩
    have hev : evalPath X [Seg.bare c.tag] = c :: tl := by rw [evalPath_single, htl]
    have h1 := walkSelfOk c X [Seg.bare c.tag] [] tl (by rfl) hev hu
    have h2 := topWalkGoOk l' X (fun d hd => h d (List.mem_cons_of_mem c hd))
    simp [topWalkGo, h1, h2]

/-- C1 (amended). `diff(X, X)` returns an empty snippet list for every
well-formed document X in which every xpath segment the walk constructs
selects its own element as the first match among the corresponding previous
children, and every constructed attribute predicate is valid xpath
(`uniqueSelDoc X`); without that resolution-unambiguity condition the claim
fails (see the counterexample). -/
theorem claimC1_amended (X : XNode) (h : uniqueSelDoc X = true) :
    generateSkilletFromConfigs X X = .ok [] := by
  have hgo : topWalkGo X X.children = .ok [] := by
    apply topWalkGoOk
    intro c hc
    have hcc := (List.all_eq_true.mp h) c hc
    simp only [Bool.and_eq_true, decide_eq_true_eq] at hcc
    exact hcc
  simp only [generateSkilletFromConfigs, topWalk, hgo]
  rfl

/-- C1 (counterexample). For the well-formed document
`<config><a><b>1</b></a><a><b>2</b></a></config>`, whose xpath `./a/b` is
ambiguous, `diff(X, X)` is not empty: the second branch's `<b>2</b>` is
compared against the first branch's `<b>1</b>`. -/
theorem claimC1_counterexample : ¬ generateSkilletFromConfigs cX1 cX1 = .ok [] := by decide

/-- C1 (witness). A concrete unambiguous document on which the amended claim
applies. -/
theorem claimC1_witness :
    uniqueSelDoc cXw = true ∧ generateSkilletFromConfigs cXw cXw = .ok [] :=
  ⟨by decide, claimC1_amended cXw (by decide)⟩

/-- C4 (amended). When a path is found absent from the previous document,
the comparator adds exactly that path and returns without descending into
the element's children; the full change set may nevertheless contain both a
path and a strict descendant of it when the same path string is reached from
different branches of the latest document (see the counterexample). -/
theorem claimC4_amended (pc el : XNode) (xpath : List Seg) (nf : List (List Seg))
    (hv : pathValid xpath = true) (habs : evalPath pc xpath = []) :
    checkElement pc el xpath nf = .ok (nf ++ [xpath]) := by
  cases el with
  | mk t a x c => simp [checkElement, hv, habs]

/-- C4 (counterexample). For `cPrev4`/`cLat4` the change set contains both
`./a/b` and its strict descendant `./a/b/c`: the two paths are generated
from different `<a>` branches of the latest document. -/
theorem claimC4_counterexample :
    ¬ (∀ res, topWalk cLat4 cPrev4 = .ok res →
        ∀ p t, p ∈ res → t ≠ [] → p ++ t ∉ res) := by
  intro h
  exact h [[Seg.bare "a", Seg.bare "b", Seg.bare "c"], [Seg.bare "a", Seg.bare "b"]]
    (by decide) [Seg.bare "a", Seg.bare "b"] [Seg.bare "c"]
    (by decide) (by decide) (by decide)

/-- C4 (witness). The amended claim applied at a concrete absent path. -/
theorem claimC4_witness :
    pathValid [Seg.bare "q"] = true ∧ evalPath cPc4w [Seg.bare "q"] = [] ∧
    checkElement cPc4w cEl4w [Seg.bare "q"] [] = .ok [[Seg.bare "q"]] :=
  ⟨by decide, by decide,
   claimC4_amended cPc4w cEl4w [Seg.bare "q"] [] (by decide) (by decide)⟩

/-- C6 (confirmed). When a node's children are classified as a homogeneous
list and the list matcher reports zero differences between the previous and
latest node, the comparator returns its accumulator unchanged: nothing is
added for the entire subtree. -/
theorem claimC6_zeroDiffShortCircuit (pc el : XNode) (xpath : List Seg)
    (nf : List (List Seg)) (f : XNode) (r : List XNode)
    (hv : pathValid xpath = true) (hf : evalPath pc xpath = f :: r)
    (hl : checkChildrenAreList el.children = true)
    (hd : diffTreesIsEmpty f el = true) :
    checkElement pc el xpath nf = .ok nf := by
  cases el with
  | mk t a x c =>
    have hc : c.isEmpty = false := checkChildrenAreList_isEmpty_false hl
    simp only [XNode.children] at hl
    simp [checkElement, hv, hf, hc, hl, hd]

/-- C6 (witness). Scenario B: an unchanged homogeneous list of three
`<entry>` siblings adds nothing, and the whole pipeline emits zero
snippets. -/
theorem claimC6_witness :
    pathValid [Seg.bare "shared"] = true ∧
    evalPath cDocB [Seg.bare "shared"] = [cSharedB] ∧
    checkChildrenAreList cSharedB.children = true ∧
    diffTreesIsEmpty cSharedB cSharedB = true ∧
    checkElement cDocB cSharedB [Seg.bare "shared"] [] = .ok [] ∧
    generateSkilletFromConfigs cDocB cDocB = .ok [] :=
  ⟨by decide, by decide, by decide, by decide,
   claimC6_zeroDiffShortCircuit cDocB cSharedB [Seg.bare "shared"] [] cSharedB []
     (by decide) (by decide) (by decide) (by decide),
   by decide⟩

/-! ## Erasing the ghost annotations recovers the real walk -/

mutual

theorem checkElementAnn_erase : ∀ (el pc : XNode) (xpath : List Seg),
    checkElement pc el xpath [] = (checkElementAnn pc el xpath).map (List.map Prod.fst)
  | .mk t a x c, pc, xpath => by
    by_cases hv : pathValid xpath = false
    · simp [checkElement, checkElementAnn, hv, Except.map]
    · cases he : evalPath pc xpath with
      | nil => simp [checkElement, checkElementAnn, hv, he, Except.map]
      | cons f rest =>
        by_cases hc : c.isEmpty
        · by_cases ht : f.text = x
          · simp [checkElement, checkElementAnn, hv, he, hc, ht, Except.map]
          · simp [checkElement, checkElementAnn, hv, he, hc, ht, Except.map]
        · by_cases hl : (checkChildrenAreList c && diffTreesIsEmpty f (XNode.mk t a x c)) = true
          · simp [checkElement, checkElementAnn, hv, he, hc, hl, Except.map]
          · have hgo := checkChildrenAnn_erase c pc xpath (checkChildrenAreList c) 1
            cases ha : checkChildrenAnn pc c xpath (checkChildrenAreList c) 1 with
            | error err =>
              rw [ha] at hgo
              simp [checkElement, checkElementAnn, hv, he, hc, hl, hgo, ha, Except.map]
            | ok ra =>
              rw [ha] at hgo
              simp [checkElement, checkElementAnn, hv, he, hc, hl, hgo, ha, Except.map]

theorem checkChildrenAnn_erase : ∀ (cs : List XNode) (pc : XNode) (xpath : List Seg)
    (il : Bool) (i : Nat),
    checkChildren pc cs xpath il i = (checkChildrenAnn pc cs xpath il i).map (List.map Prod.fst)
  | [], _, _, _, _ => rfl
  | e :: cs', pc, xpath, il, i => by
    cases hs : childSeg e il i with
    | error err => simp [checkChildren, checkChildrenAnn, hs, Except.map]
    | ok seg =>
      have h1 := checkElementAnn_erase e pc (xpath ++ [seg])
      have h2 := checkChildrenAnn_erase cs' pc xpath il (i + 1)
      cases ha : checkElementAnn pc e (xpath ++ [seg]) with
      | error err =>
        rw [ha] at h1
        simp [checkChildren, checkChildrenAnn, hs, h1, ha, Except.map]
      | ok na =>
        rw [ha] at h1
        cases hb : checkChildrenAnn pc cs' xpath il (i + 1) with
        | error err =>
          rw [hb] at h2
          simp [checkChildren, checkChildrenAnn, hs, h1, ha, h2, hb, Except.map]
        | ok ma =>
          rw [hb] at h2
          simp [checkChildren, checkChildrenAnn, hs, h1, ha, h2, hb, Except.map]

end

/-! ## The per-entry invariant of the annotated walk -/

mutual

theorem checkElementAnn_inv : ∀ (el pc : XNode) (xpath : List Seg)
    (res : List (List Seg × XNode)),
    checkElementAnn pc el xpath = .ok res → ∀ pe ∈ res, annInvProp pc pe
  | .mk t a x c, pc, xpath, res => by
    intro h pe hpe
    simp only [checkElementAnn] at h
    split at h
    · exact Except.noConfusion h
    · split at h
      · rename_i he
        injection h with h'
        subst h'
        simp only [List.mem_singleton] at hpe
        subst hpe
        exact Or.inl he
      · rename_i f rest he
        split at h
        · rename_i hc
          split at h
          · injection h with h'
            subst h'
            simp at hpe
          · rename_i ht
            injection h with h'
            subst h'
            simp only [List.mem_singleton] at hpe
            subst hpe
            exact Or.inr ⟨f, rest, he, ht, by simpa using hc⟩
        · split at h
          · injection h with h'
            subst h'
            simp at hpe
          · exact checkChildrenAnn_inv c pc xpath (checkChildrenAreList c) 1 res h pe hpe

theorem checkChildrenAnn_inv : ∀ (cs : List XNode) (pc : XNode) (xpath : List Seg)
    (il : Bool) (i : Nat) (res : List (List Seg × XNode)),
    checkChildrenAnn pc cs xpath il i = .ok res → ∀ pe ∈ res, annInvProp pc pe
  | [], pc, xpath, il, i, res => by
    intro h pe hpe
    simp only [checkChildrenAnn] at h
    injection h with h'
    subst h'
    simp at hpe
  | e :: cs', pc, xpath, il, i, res => by
    intro h pe hpe
    simp only [checkChildrenAnn] at h
    split at h
    · exact Except.noConfusion h
    · rename_i seg hs
      split at h
      · exact Except.noConfusion h
      · rename_i na ha
        split at h
        · exact Except.noConfusion h
        · rename_i ma hb
          injection h with h'
          subst h'
          rcases List.mem_append.mp hpe with hna | hma
          · exact checkElementAnn_inv e pc (xpath ++ [seg]) na ha pe hna
          · exact checkChildrenAnn_inv cs' pc xpath il (i + 1) ma hb pe hma

end

theorem topWalkGo_erase : ∀ (l : List XNode) (pc : XNode),
    topWalkGo pc l = (topWalkAnnGo pc l).map (List.map Prod.fst)
  | [], _ => rfl
  | c :: l', pc => by
    have h1 := checkElementAnn_erase c pc [Seg.bare c.tag]
    have h2 := topWalkGo_erase l' pc
    cases ha : checkElementAnn pc c [Seg.bare c.tag] with
    | error err =>
      rw [ha] at h1
      simp [topWalkGo, topWalkAnnGo, h1, ha, Except.map]
    | ok na =>
      rw [ha] at h1
      cases hb : topWalkAnnGo pc l' with
      | error err =>
        rw [hb] at h2
        simp [topWalkGo, topWalkAnnGo, h1, ha, h2, hb, Except.map]
      | ok ma =>
        rw [hb] at h2
        simp [topWalkGo, topWalkAnnGo, h1, ha, h2, hb, Except.map]

theorem topWalkAnnGo_inv : ∀ (l : List XNode) (pc : XNode) (res : List (List Seg × XNode)),
    topWalkAnnGo pc l = .ok res → ∀ pe ∈ res, annInvProp pc pe
  | [], pc, res => by
    intro h pe hpe
    simp only [topWalkAnnGo] at h
    injection h with h'
    subst h'
    simp at hpe
  | c :: l', pc, res => by
    intro h pe hpe
    simp only [topWalkAnnGo] at h
    split at h
    · exact Except.noConfusion h
    · rename_i na ha
      split at h
      · exact Except.noConfusion h
      · rename_i ma hb
        injection h with h'
        subst h'
        rcases List.mem_append.mp hpe with hna | hma
        · exact checkElementAnn_inv c pc [Seg.bare c.tag] na ha pe hna
        · exact topWalkAnnGo_inv l' pc ma hb pe hma

/-- C3 (amended). Every xpath in the change set either resolves to no node
in the previous document, or the first node it resolves to there has text
content differing from the text of the (childless) latest-document element
the xpath was generated from.  The xpath may nonetheless also resolve in the
previous document to other nodes with identical text, and the generating
element need not be the first node the xpath selects in the latest document
(see the counterexample), so the comparison against "the node at that xpath
in the latest document" does not hold as stated. -/
theorem claimC3_amended (lat prev : XNode) (res : List (List Seg × XNode))
    (h : topWalkAnn lat prev = .ok res) :
    topWalk lat prev = .ok (res.map Prod.fst) ∧
    ∀ pe ∈ res, evalPath prev pe.1 = [] ∨
      ∃ f r, evalPath prev pe.1 = f :: r ∧ ¬ f.text = pe.2.text ∧ pe.2.children = [] := by
  constructor
  · have he := topWalkGo_erase lat.children prev
    have h' : topWalkAnnGo prev lat.children = .ok res := h
    rw [topWalk, he, h']
    rfl
  · intro pe hpe
    exact topWalkAnnGo_inv lat.children prev res h pe hpe

/-- C3 (counterexample). For the document
`<config><n><p>1</p></n><n><p>2</p></n></config>` diffed against itself, the
change set contains `./n/p`, which resolves in the previous document to a
node (`<p>1</p>`) whose text is identical to the text of the first node that
xpath selects in the latest document — refuting both halves of the claim as
stated. -/
theorem claimC3_counterexample :
    ¬ (∀ res, topWalk cPrev3 cPrev3 = .ok res → ∀ p ∈ res,
        evalPath cPrev3 p = [] ∨
        ∀ pn ∈ evalPath cPrev3 p, ∀ ln ∈ (evalPath cPrev3 p).take 1,
          ¬ pn.text = ln.text) := by
  intro h
  rcases h [[Seg.bare "n", Seg.bare "p"]] (by decide) [Seg.bare "n", Seg.bare "p"] (by decide)
    with he | hall
  · exact absurd he (by decide)
  · exact hall (pNode "1") (by decide) (pNode "1") (by decide) rfl

/-- C3 (witness). Scenario C: a changed `<port>` text is reported at its
path, which is absent-or-text-divergent in the previous document. -/
theorem claimC3_witness :
    topWalkAnn cLatC cPrevC = .ok [(cPathC, cPortLat)] ∧
    (topWalk cLatC cPrevC = .ok ([(cPathC, cPortLat)].map Prod.fst) ∧
     ∀ pe ∈ [(cPathC, cPortLat)], evalPath cPrevC pe.1 = [] ∨
       ∃ f r, evalPath cPrevC pe.1 = f :: r ∧ ¬ f.text = pe.2.text ∧ pe.2.children = []) :=
  ⟨by decide, claimC3_amended cLatC cPrevC [(cPathC, cPortLat)] (by decide)⟩

/-- C2 (amended). Scenario A yields exactly one snippet, but the walk stops
at the first absent path `./network/interface`: the snippet's container path
is `/config/network` (ending in `/network`), its full path is
`./network/interface`, and its serialized element is the whole
`<interface><entry name="eth1"/></interface>` subtree. -/
theorem claimC2_amended : generateSkilletFromConfigs cPrevA cLatA = .ok [cSnipA] := by decide

/-- C2 (counterexample). The produced snippet's container path does not end
in `/network/interface`, and its serialized element is not
`<entry name="eth1"/>`, contradicting the claim at its own input. -/
theorem claimC2_counterexample :
    generateSkilletFromConfigs cPrevA cLatA = .ok [cSnipA] ∧
    strEnds cSnipA.xpath "/network/interface" = false ∧
    ¬ cSnipA.element = "<entry name=\"eth1\"/>" := by
  refine ⟨by decide, by decide, by decide⟩

/-- C7 (code bug). `generate_skillet_from_configs` serializes the resolved
node without ever calling `__clean_uuid` (the `FIXME` at line 923): a new
subtree carrying `uuid="1234"` is emitted with the attribute intact.  The
cleaning function itself is a no-op on an absent (`None`) node, as the claim
says. -/
theorem claimC7_uuidNotStripped :
    generateSkilletFromConfigs cPrev7 cLat7 = .ok [cSnip7] ∧
    containsSub cSnip7.element "uuid=\"1234\"" = true ∧
    cleanUuidOpt none = none := by
  refine ⟨by decide, by decide, rfl⟩

/-- C9 (code bug). For an attribute-less child of a changed homogeneous list
whose text is absent (`None`), `e.text.strip()` raises `AttributeError`
instead of producing a positional-index segment; the model's walk returns
the corresponding `noneText` error.  The non-`None` cases do construct the
text-predicate and index segments the claim describes. -/
theorem claimC9_noneTextCrash :
    generateSkilletFromConfigs cPrev9 cLat9 = .error .noneText ∧
    childSeg (XNode.mk "m" [] (some "x") []) true 1 = .ok (Seg.txt "m" "x") ∧
    childSeg (XNode.mk "m" [] (some "  ") []) true 2 = .ok (Seg.idx "m" 2) := by
  refine ⟨by decide, by decide, by decide⟩

/-! ## Fold lemmas for the ordering engine -/

theorem foldl_append_flatMap {α β : Type} (l : List β) (f : β → List α) :
    ∀ (init : List α), l.foldl (fun acc x => acc ++ f x) init = init ++ l.flatMap f := by
  induction l with
  | nil => intro init; simp
  | cons x xs ih =>
    intro init
    simp only [List.foldl_cons, List.flatMap_cons, ih, List.append_assoc]

theorem decide_eq_bool {p : Prop} [Decidable p] {b : Bool} (h : p ↔ b = true) :
    decide p = b := by
  cases b <;> simp_all

theorem dedupFold {γ : Type} [DecidableEq γ] :
    ∀ (l : List γ) (B A : List γ), l.Nodup →
      l.foldl (fun acc s => if s ∈ acc ∨ s ∈ B then acc else acc ++ [s]) A
        = A ++ l.filter (fun s => decide (s ∉ A) && decide (s ∉ B))
  | [], B, A, _ => by simp
  | s :: t, B, A, hnd => by
    have hst : s ∉ t := (List.nodup_cons.mp hnd).1
    have hndt : t.Nodup := (List.nodup_cons.mp hnd).2
    by_cases hs : s ∈ A ∨ s ∈ B
    · have hpred : (decide (s ∉ A) && decide (s ∉ B)) = false := by
        rcases hs with h1 | h1 <;> simp [h1]
      simp only [List.foldl_cons, if_pos hs, List.filter_cons, hpred]
      exact dedupFold t B A hndt
    · push_neg at hs
      have hpred : (decide (s ∉ A) && decide (s ∉ B)) = true := by simp [hs.1, hs.2]
      have hif : ¬ (s ∈ A ∨ s ∈ B) := by simp [hs.1, hs.2]
      simp only [List.foldl_cons, if_neg hif, List.filter_cons, hpred]
      rw [dedupFold t B (A ++ [s]) hndt]
      have hcongr : t.filter (fun y => decide (y ∉ A ++ [s]) && decide (y ∉ B))
          = t.filter (fun y => decide (y ∉ A) && decide (y ∉ B)) := by
        apply List.filter_congr
        intro y hy
        have hys : ¬ y = s := fun he => hst (he ▸ hy)
        simp [List.mem_append, hys]
      rw [hcongr, List.append_assoc]
      rfl

theorem dedupFold2 {γ : Type} [DecidableEq γ] :
    ∀ (l A : List γ), l.Nodup →
      l.foldl (fun acc s => if s ∈ acc then acc else acc ++ [s]) A
        = A ++ l.filter (fun s => decide (s ∉ A))
  | [], A, _ => by simp
  | s :: t, A, hnd => by
    have hst : s ∉ t := (List.nodup_cons.mp hnd).1
    have hndt : t.Nodup := (List.nodup_cons.mp hnd).2
    by_cases hs : s ∈ A
    · have hpred : decide (s ∉ A) = false := by simp [hs]
      simp only [List.foldl_cons, if_pos hs, List.filter_cons, hpred]
      exact dedupFold2 t A hndt
    · have hpred : decide (s ∉ A) = true := by simp [hs]
      simp only [List.foldl_cons, if_neg hs, List.filter_cons, hpred]
      rw [dedupFold2 t (A ++ [s]) hndt]
      have hcongr : t.filter (fun y => decide (y ∉ A ++ [s]))
          = t.filter (fun y => decide (y ∉ A)) := by
        apply List.filter_congr
        intro y hy
        have hys : ¬ y = s := fun he => hst (he ▸ hy)
        simp [List.mem_append, hys]
      rw [hcongr, List.append_assoc]
      rfl

/-- C5 (amended). For a duplicate-free input list the ordering engine
outputs, for each priority prefix in order, every snippet whose full path
contains that prefix (so a snippet matching several priority prefixes is
output once per matching prefix — matched snippets are not removed from the
pool, refuting "exactly once"); then the snippets matching no priority
prefix and not containing `/rulebase`, in original order; then the snippets
containing `/rulebase` but no priority prefix, in original order. -/
theorem claimC5_amended (snippets : List Snippet) (hnd : snippets.Nodup) :
    orderSnippets snippets =
      xpathsPriority.flatMap (fun x => filterSnippetsByXpath snippets x)
      ++ snippets.filter (fun s =>
           !(xpathsPriority.any (fun x => containsSub s.full_xpath x))
             && !(containsSub s.full_xpath "/rulebase"))
      ++ snippets.filter (fun s =>
           !(xpathsPriority.any (fun x => containsSub s.full_xpath x))
             && containsSub s.full_xpath "/rulebase") := by
  have hP : postXpaths.flatMap (fun x => filterSnippetsByXpath snippets x)
      = snippets.filter (fun s => containsSub s.full_xpath "/rulebase") := by
    simp [postXpaths, filterSnippetsByXpath]
  have hmemO : ∀ s ∈ snippets,
      (s ∈ xpathsPriority.flatMap (fun x => filterSnippetsByXpath snippets x)
        ↔ xpathsPriority.any (fun x => containsSub s.full_xpath x) = true) := by
    intro s hs
    simp only [List.mem_flatMap, filterSnippetsByXpath, List.mem_filter, List.any_eq_true]
    constructor
    · rintro ⟨x, hx, _, hc⟩
      exact ⟨x, hx, hc⟩
    · rintro ⟨x, hx, hc⟩
      exact ⟨x, hx, hs, hc⟩
  simp only [orderSnippets, foldl_append_flatMap, List.nil_append, hP]
  rw [dedupFold snippets (snippets.filter (fun s => containsSub s.full_xpath "/rulebase"))
      (xpathsPriority.flatMap (fun x => filterSnippetsByXpath snippets x)) hnd]
  have hF1 : snippets.filter (fun s =>
        decide (s ∉ xpathsPriority.flatMap (fun x => filterSnippetsByXpath snippets x))
          && decide (s ∉ snippets.filter (fun s => containsSub s.full_xpath "/rulebase")))
      = snippets.filter (fun s =>
          !(xpathsPriority.any (fun x => containsSub s.full_xpath x))
            && !(containsSub s.full_xpath "/rulebase")) := by
    apply List.filter_congr
    intro s hs
    have h1 : decide (s ∈ xpathsPriority.flatMap (fun x => filterSnippetsByXpath snippets x))
        = xpathsPriority.any (fun x => containsSub s.full_xpath x) :=
      decide_eq_bool (hmemO s hs)
    have h2 : decide (s ∈ snippets.filter (fun s => containsSub s.full_xpath "/rulebase"))
        = containsSub s.full_xpath "/rulebase" :=
      decide_eq_bool (by simp [List.mem_filter, hs])
    simp only [decide_not, h1, h2]
  rw [hF1]
  rw [dedupFold2 (snippets.filter (fun s => containsSub s.full_xpath "/rulebase")) _
      (hnd.filter _)]
  have hF2 : (snippets.filter (fun s => containsSub s.full_xpath "/rulebase")).filter
        (fun s => decide (s ∉
          xpathsPriority.flatMap (fun x => filterSnippetsByXpath snippets x)
          ++ snippets.filter (fun s =>
               !(xpathsPriority.any (fun x => containsSub s.full_xpath x))
                 && !(containsSub s.full_xpath "/rulebase"))))
      = snippets.filter (fun s =>
          !(xpathsPriority.any (fun x => containsSub s.full_xpath x))
            && containsSub s.full_xpath "/rulebase") := by
    have hstep : (snippets.filter (fun s => containsSub s.full_xpath "/rulebase")).filter
          (fun s => decide (s ∉
            xpathsPriority.flatMap (fun x => filterSnippetsByXpath snippets x)
            ++ snippets.filter (fun s =>
                 !(xpathsPriority.any (fun x => containsSub s.full_xpath x))
                   && !(containsSub s.full_xpath "/rulebase"))))
        = (snippets.filter (fun s => containsSub s.full_xpath "/rulebase")).filter
            (fun s => !(xpathsPriority.any (fun x => containsSub s.full_xpath x))) := by
      apply List.filter_congr
      intro s hs
      have hsn : s ∈ snippets := (List.mem_filter.mp hs).1
      have hsr : containsSub s.full_xpath "/rulebase" = true := (List.mem_filter.mp hs).2
      have hnotF1 : s ∉ snippets.filter (fun s =>
          !(xpathsPriority.any (fun x => containsSub s.full_xpath x))
            && !(containsSub s.full_xpath "/rulebase")) := by
        simp [List.mem_filter, hsr]
      have hiff : (s ∈ xpathsPriority.flatMap (fun x => filterSnippetsByXpath snippets x)
            ++ snippets.filter (fun s =>
                 !(xpathsPriority.any (fun x => containsSub s.full_xpath x))
                   && !(containsSub s.full_xpath "/rulebase")))
          ↔ xpathsPriority.any (fun x => containsSub s.full_xpath x) = true := by
        rw [List.mem_append]
        constructor
        · rintro (h1 | h1)
          · exact (hmemO s hsn).mp h1
          · exact absurd h1 hnotF1
        · intro h1
          exact Or.inl ((hmemO s hsn).mpr h1)
      simp only [decide_not, decide_eq_bool hiff]
    rw [hstep, List.filter_filter]
  rw [hF2, List.append_assoc]

/-- C5 (counterexample). A snippet whose full path contains both
`/shared/certificate` and `/shared/tag` is collected by both priority
classes — `__filter_snippets_by_xpath` never removes snippets from the pool
(the `snippets.remove(s)` is commented out) — so it appears twice in the
output, refuting "outputs each input snippet exactly once". -/
theorem claimC5_counterexample :
    orderSnippets [cSnip5] = [cSnip5, cSnip5] ∧
    ¬ (orderSnippets [cSnip5]).count cSnip5 = 1 := by
  refine ⟨by decide, by decide⟩

/-- C5 (witness). The amended claim applied to a three-snippet list
(exercising a priority match, an unmatched snippet, and a deferred rulebase
snippet, which come out in that order). -/
theorem claimC5_witness :
    ([sRule, sMisc, sTag] : List Snippet).Nodup ∧
    orderSnippets [sRule, sMisc, sTag] =
      xpathsPriority.flatMap (fun x => filterSnippetsByXpath [sRule, sMisc, sTag] x)
      ++ ([sRule, sMisc, sTag] : List Snippet).filter (fun s =>
           !(xpathsPriority.any (fun x => containsSub s.full_xpath x))
             && !(containsSub s.full_xpath "/rulebase"))
      ++ ([sRule, sMisc, sTag] : List Snippet).filter (fun s =>
           !(xpathsPriority.any (fun x => containsSub s.full_xpath x))
             && containsSub s.full_xpath "/rulebase") :=
  ⟨by decide, claimC5_amended [sRule, sMisc, sTag] (by decide)⟩

/-- C8 (confirmed). On valid change paths the assembly loop never fails:
it returns exactly the snippets of the paths whose container path is not on
the ignore list and which still resolve in the latest document; the others
are skipped. -/
theorem claimC8_assembly : ∀ (paths : List (List Seg)) (doc : XNode) (idx : Nat),
    (∀ p ∈ paths, pathValid p = true) →
    assembleGo doc paths idx = .ok ((withIdx idx paths).filterMap (assembleSpecOne doc))
  | [], _, _, _ => rfl
  | p :: rest, doc, idx, h => by
    have hp : pathValid p = true := h p (List.mem_cons_self p rest)
    have hrest := claimC8_assembly rest doc (idx + 1)
      (fun q hq => h q (List.mem_cons_of_mem p hq))
    by_cases hig : setXpathOf p ∈ ignoredXpaths
    · simp [assembleGo, withIdx, assembleSpecOne, hig, hrest]
    · cases he : evalPath doc p with
      | nil => simp [assembleGo, withIdx, assembleSpecOne, hig, hp, he, hrest]
      | cons changed tl => simp [assembleGo, withIdx, assembleSpecOne, hig, hp, he, hrest]

/-- C8 (witness). A path whose container is the built-in admin account is
skipped, a path that no longer resolves is skipped, and the remaining path
is assembled — without an error. -/
theorem claimC8_witness :
    (∀ p ∈ wPaths8, pathValid p = true) ∧
    assembleGo wDoc8 wPaths8 0 = .ok [wSnip8] :=
  ⟨by decide, (claimC8_assembly wPaths8 wDoc8 0 (by decide)).trans (by decide)⟩

/-- C10 (confirmed). `generate_set_cli_from_configs` keeps exactly the
latest-config set commands absent from the previous config's commands and
not containing `set readonly`, in order, each cleaned by removing
`devices localhost.localdomain `, replacing newlines with spaces, and
removing `vsys vsys1 `. -/
theorem claimC10_setCliDiff (pSet lSet : List String) :
    generateSetCliFromConfigs pSet lSet
      = (lSet.filter (fun cmd =>
          decide (cmd ∉ pSet) && !(containsSub cmd "set readonly"))).map cleanSetCmd := by
  have hgo : ∀ (l acc : List String),
      l.foldl (fun diffs cmd =>
          if cmd ∈ pSet ∨ containsSub cmd "set readonly" = true then diffs
          else diffs ++ [cleanSetCmd cmd]) acc
        = acc ++ (l.filter (fun cmd =>
            decide (cmd ∉ pSet) && !(containsSub cmd "set readonly"))).map cleanSetCmd := by
    intro l
    induction l with
    | nil => intro acc; simp
    | cons cmd t ih =>
      intro acc
      by_cases hc : cmd ∈ pSet ∨ containsSub cmd "set readonly" = true
      · have hpred : (decide (cmd ∉ pSet) && !(containsSub cmd "set readonly")) = false := by
          rcases hc with h1 | h1 <;> simp [h1]
        simp only [List.foldl_cons, if_pos hc, List.filter_cons, hpred]
        exact ih acc
      · have hpred : (decide (cmd ∉ pSet) && !(containsSub cmd "set readonly")) = true := by
          push_neg at hc
          simp [hc.1, hc.2]
        simp only [List.foldl_cons, if_neg hc, List.filter_cons, hpred]
        rw [ih (acc ++ [cleanSetCmd cmd])]
        simp
  exact hgo lSet []
